import Mathlib

/-!
Verification of the machine-settings core of the simple-drawbot-software
repository (src/src/gcode_generator/core/settings.py).

The Python module is shallowly embedded: the `MachineSettings` dataclass
becomes a Lean structure over `ℚ` (Python floats are rationals; every claim
here compares exact values, and every value any claim touches is exactly
representable, so `ℚ` is a faithful carrier), exceptions become an explicit
`PyError` sum returned through `Except`, and the JSON file round-trip is
embedded with a real printer and a real parser over `List Char`.

Modelling notes, stated once here:
* `PyError` constructors model the Python exception *types* raised by the
  module (`ValueError`, `TypeError`, `KeyError`, `json.JSONDecodeError`,
  `FileNotFoundError`, `AttributeError`).  Messages of `ValueError`s are
  modelled exactly (they are fixed f-string outputs); the payloads of
  `KeyError`/`JSONDecodeError` are abstracted to the data they name.
* `float(v)` on strings is modelled for plain decimal literals
  (optional sign, digits, optional fraction); exotic inputs ("inf",
  exponents) are outside every claim.
* `json.dump`/`json.load` are modelled by `dumps`/`loads` for the flat
  documents this module ever writes or reads: a top-level object whose
  values are scalars.  Nested containers appear in no claim.
-/

namespace DrawBot

/-- A Python value as it can appear in the dictionaries handled by
`MachineSettings.from_dict` / produced by `json.load`: a number
(int or float, both exact here), a string, a boolean, or `None`. -/
inductive PyValue where
  | num (q : ℚ)
  | str (s : String)
  | bool (b : Bool)
  | none
deriving DecidableEq, Repr

/-- The Python exceptions the settings module can raise or propagate.
`valueError` covers both the validation failures raised by
`__post_init__` and the wrapper raised by `from_dict`;
`jsonDecodeError` is `json.JSONDecodeError` (a `ValueError` subclass in
Python, kept separate here because `load` catches it separately);
`keyError` carries the set of missing required keys its message names. -/
inductive PyError where
  | valueError (msg : String)
  | typeError (msg : String)
  | keyError (missing : List String)
  | jsonDecodeError (msg : String)
  | fileNotFoundError
  | attributeError
deriving DecidableEq, Repr

/-- The `MachineSettings` dataclass: six float fields, here exact rationals.
Field order is the dataclass declaration order (it fixes `asdict` order). -/
structure MachineSettings where
  bed_width : ℚ
  bed_height : ℚ
  feed_rate : ℚ
  pen_up_position : ℚ
  pen_down_position : ℚ
  safe_z : ℚ
deriving DecidableEq, Repr

namespace MachineSettings

/-- `MIN_DIMENSION: ClassVar[float] = 0.1` -/
def MIN_DIMENSION : ℚ := 1/10
/-- `MAX_DIMENSION: ClassVar[float] = 1000.0` -/
def MAX_DIMENSION : ℚ := 1000
/-- `MIN_FEED_RATE: ClassVar[float] = 1.0` -/
def MIN_FEED_RATE : ℚ := 1
/-- `MAX_FEED_RATE: ClassVar[float] = 5000.0` -/
def MAX_FEED_RATE : ℚ := 5000

/-- The dataclass field defaults:
`bed_width=200.0, bed_height=200.0, feed_rate=1000.0, pen_up_position=1.0,
pen_down_position=0.0, safe_z=1.0`. -/
def defaults : MachineSettings :=
  { bed_width := 200, bed_height := 200, feed_rate := 1000,
    pen_up_position := 1, pen_down_position := 0, safe_z := 1 }

/-- `_validate_dimensions`: bed width then bed height against the inclusive
class bounds, raising `ValueError` with the module's message on failure. -/
def validate_dimensions (s : MachineSettings) : Except PyError Unit :=
  if ¬ (MIN_DIMENSION ≤ s.bed_width ∧ s.bed_width ≤ MAX_DIMENSION) then
    .error (.valueError "Bed width must be between 0.1 and 1000.0mm")
  else if ¬ (MIN_DIMENSION ≤ s.bed_height ∧ s.bed_height ≤ MAX_DIMENSION) then
    .error (.valueError "Bed height must be between 0.1 and 1000.0mm")
  else .ok ()

/-- `_validate_feed_rate`: inclusive feed-rate bounds. -/
def validate_feed_rate (s : MachineSettings) : Except PyError Unit :=
  if ¬ (MIN_FEED_RATE ≤ s.feed_rate ∧ s.feed_rate ≤ MAX_FEED_RATE) then
    .error (.valueError "Feed rate must be between 1.0 and 5000.0mm/min")
  else .ok ()

/-- `_validate_z_positions`: `pen_down_position > pen_up_position` fails,
then `safe_z < pen_up_position` fails; equality passes both. -/
def validate_z_positions (s : MachineSettings) : Except PyError Unit :=
  if s.pen_down_position > s.pen_up_position then
    .error (.valueError "Pen down position must be lower than pen up position")
  else if s.safe_z < s.pen_up_position then
    .error (.valueError "Safe Z must be higher than pen up position")
  else .ok ()

/-- `__post_init__`: the three validators in source order, short-circuiting
on the first raised `ValueError`. -/
def post_init (s : MachineSettings) : Except PyError Unit :=
  match validate_dimensions s with
  | .error e => .error e
  | .ok _ =>
    match validate_feed_rate s with
    | .error e => .error e
    | .ok _ => validate_z_positions s

/-- Constructing `MachineSettings(bed_width=…, …)`: the dataclass
`__init__` assigns the six fields, then `__post_init__` validates. -/
def mk' (bw bh fr up down sz : ℚ) : Except PyError MachineSettings :=
  let s : MachineSettings :=
    { bed_width := bw, bed_height := bh, feed_rate := fr,
      pen_up_position := up, pen_down_position := down, safe_z := sz }
  (post_init s).map fun _ => s

/-- The three documented invariants of §3 of the design, as one predicate. -/
def invariantsHold (s : MachineSettings) : Prop :=
  (MIN_DIMENSION ≤ s.bed_width ∧ s.bed_width ≤ MAX_DIMENSION) ∧
  (MIN_DIMENSION ≤ s.bed_height ∧ s.bed_height ≤ MAX_DIMENSION) ∧
  (MIN_FEED_RATE ≤ s.feed_rate ∧ s.feed_rate ≤ MAX_FEED_RATE) ∧
  (s.pen_down_position ≤ s.pen_up_position ∧ s.pen_up_position ≤ s.safe_z)

instance (s : MachineSettings) : Decidable (invariantsHold s) := by
  unfold invariantsHold; infer_instance

/-- One bare field assignment `instance.field = v` on the (unfrozen)
dataclass: Python updates the attribute and runs no validation
(`__post_init__` only runs inside `__init__`). -/
inductive FieldUpdate where
  | setBedWidth (v : ℚ)
  | setBedHeight (v : ℚ)
  | setFeedRate (v : ℚ)
  | setPenUp (v : ℚ)
  | setPenDown (v : ℚ)
  | setSafeZ (v : ℚ)
deriving DecidableEq, Repr

/-- Effect of a field assignment on a live instance: a plain record update,
exactly what the non-frozen dataclass does. -/
def applyUpdate (s : MachineSettings) : FieldUpdate → MachineSettings
  | .setBedWidth v => { s with bed_width := v }
  | .setBedHeight v => { s with bed_height := v }
  | .setFeedRate v => { s with feed_rate := v }
  | .setPenUp v => { s with pen_up_position := v }
  | .setPenDown v => { s with pen_down_position := v }
  | .setSafeZ v => { s with safe_z := v }

/-- `to_dict` = `dataclasses.asdict(self)`: the six fields in declaration
order, each a float value. -/
def to_dict (s : MachineSettings) : List (String × PyValue) :=
  [("bed_width", .num s.bed_width), ("bed_height", .num s.bed_height),
   ("feed_rate", .num s.feed_rate), ("pen_up_position", .num s.pen_up_position),
   ("pen_down_position", .num s.pen_down_position), ("safe_z", .num s.safe_z)]

end MachineSettings

/-- Numeric value of a decimal digit character. -/
def charDigit (c : Char) : ℕ := c.toNat - 48

/-- The number a big-endian list of digit characters denotes. -/
def charsToNat (cs : List Char) : ℕ :=
  Nat.ofDigits 10 ((cs.map charDigit).reverse)

/-- Parse an unsigned decimal literal (digits, optionally a point followed
by digits) from the front of `cs`; returns the exact value and the rest. -/
def parseUnsigned (cs : List Char) : Option (ℚ × List Char) :=
  let ip := cs.takeWhile Char.isDigit
  let rest := cs.dropWhile Char.isDigit
  if ip.isEmpty then Option.none
  else
    match rest with
    | '.' :: rest2 =>
      let fp := rest2.takeWhile Char.isDigit
      if fp.isEmpty then Option.none
      else Option.some
        ((charsToNat ip : ℚ) + (charsToNat fp : ℚ) / 10 ^ fp.length,
         rest2.dropWhile Char.isDigit)
    | _ => Option.some ((charsToNat ip : ℚ), rest)

/-- Whitespace as both `str.strip` and the JSON lexer treat it. -/
def isWs (c : Char) : Bool := c = ' ' ∨ c = '\n' ∨ c = '\t' ∨ c = '\r'

/-- `float(s)` on a string: strip whitespace, optional sign, a plain decimal
literal, nothing else.  (Exotic accepted spellings — exponents, `inf` —
occur in no claim and are not modelled.) -/
def pyFloatString (s : String) : Option ℚ :=
  let cs := (s.data.dropWhile isWs)
  let (sign, cs) : ℚ × List Char :=
    match cs with
    | '-' :: t => (-1, t)
    | '+' :: t => (1, t)
    | _ => (1, cs)
  match parseUnsigned cs with
  | Option.some (q, rest) =>
    if (rest.dropWhile isWs).isEmpty then Option.some (sign * q) else Option.none
  | Option.none => Option.none

/-- `float(v)` on the values that can appear in a settings dictionary. -/
def pyFloat : PyValue → Except PyError ℚ
  | .num q => .ok q
  | .bool b => .ok (if b then 1 else 0)
  | .str s =>
    match pyFloatString s with
    | Option.some q => .ok q
    | Option.none =>
      .error (.valueError ("could not convert string to float: \x27" ++ s ++ "\x27"))
  | .none =>
    .error (.typeError "float() argument must be a string or a real number, not \x27NoneType\x27")

namespace MachineSettings

/-- The `required_keys` set literal of `from_dict`. -/
def required_keys : List String :=
  ["bed_width", "bed_height", "feed_rate",
   "pen_up_position", "pen_down_position", "safe_z"]

/-- `str(e)` of a caught `ValueError`/`TypeError`: its message. -/
def errMsg : PyError → String
  | .valueError m => m
  | .typeError m => m
  | _ => ""

/-- The comprehension `{k: float(v) for k, v in data.items() if k in
required_keys}`: converts required entries in dictionary order, stopping at
the first conversion failure (Python raises there). -/
def convertRequired : List (String × PyValue) → Except PyError (List (String × ℚ))
  | [] => .ok []
  | (k, v) :: rest =>
    if k ∈ required_keys then do
      let q ← pyFloat v
      let tl ← convertRequired rest
      .ok ((k, q) :: tl)
    else convertRequired rest

/-- Field extraction from the converted dictionary (all six keys are present
whenever this is reached, so the default is never used). -/
def getQ (l : List (String × ℚ)) (k : String) : ℚ := (l.lookup k).getD 0

/-- The body of `from_dict`'s `try:` block — convert the required values
with `float`, then construct the instance (running `__post_init__`);
the first `ValueError`/`TypeError` raised anywhere inside propagates. -/
def decodeFields (data : List (String × PyValue)) : Except PyError MachineSettings :=
  match convertRequired data with
  | .error e => .error e
  | .ok conv =>
    mk' (getQ conv "bed_width") (getQ conv "bed_height") (getQ conv "feed_rate")
      (getQ conv "pen_up_position") (getQ conv "pen_down_position")
      (getQ conv "safe_z")

/-- The `except (ValueError, TypeError) as e: raise ValueError(f"Invalid
setting value: {str(e)}")` handler around the `try:` body. -/
def wrapInvalid (r : Except PyError MachineSettings) : Except PyError MachineSettings :=
  match r with
  | .error e => .error (.valueError ("Invalid setting value: " ++ errMsg e))
  | .ok s => .ok s

/-- `from_dict(data)`: missing required keys raise `KeyError` naming them;
then the required values are converted with `float` and the instance is
constructed (running `__post_init__`), with any `ValueError`/`TypeError`
from either step re-raised as `ValueError("Invalid setting value: …")`. -/
def from_dict (data : List (String × PyValue)) : Except PyError MachineSettings :=
  if (required_keys.filter fun k => (data.lookup k).isNone) ≠ [] then
    .error (.keyError (required_keys.filter fun k => (data.lookup k).isNone))
  else
    wrapInvalid (decodeFields data)

end MachineSettings

/-! ### Exact decimal representation of float values

`json.dump` writes each float through `repr`, an exact decimal literal, and
`json.load` reads it back to the identical float.  `floatRepr` produces an
exact decimal literal for a rational whose denominator is decimal (every
Python float is a dyadic rational, hence decimal); `parseUnsigned` above
reads such literals back exactly. -/

/-- Big-endian decimal digit characters of a natural number. -/
def natToChars (n : ℕ) : List Char :=
  if n = 0 then ['0'] else ((Nat.digits 10 n).map Nat.digitChar).reverse

/-- `q` (as a float value) has a finite decimal expansion; true of every
Python float, whose denominator is a power of two. -/
def IsDecimal (q : ℚ) : Prop := (q * 10 ^ q.den).den = 1

instance (q : ℚ) : Decidable (IsDecimal q) := by unfold IsDecimal; infer_instance

/-- Decimal literal of a nonnegative decimal rational: the mantissa digits of
`q·10^k` (for `k = q.den`, enough tens to clear the denominator), left-padded
with zeros, with the point inserted `k` places from the right. -/
def floatReprNN (q : ℚ) : List Char :=
  let k := q.den
  let ds0 := natToChars (q * 10 ^ k).num.toNat
  let ds := List.replicate (k + 1 - ds0.length) '0' ++ ds0
  ds.take (ds.length - k) ++ '.' :: ds.drop (ds.length - k)

/-- `repr` of a float value: sign then the nonnegative literal. -/
def floatRepr (q : ℚ) : List Char :=
  if q < 0 then '-' :: floatReprNN (-q) else floatReprNN q

theorem charDigit_digitChar {d : ℕ} (h : d < 10) :
    charDigit d.digitChar = d := by
  interval_cases d <;> decide

theorem isDigit_digitChar {d : ℕ} (h : d < 10) :
    d.digitChar.isDigit = true := by
  interval_cases d <;> decide

theorem natToChars_digits {c : Char} {n : ℕ} (h : c ∈ natToChars n) :
    c.isDigit = true := by
  unfold natToChars at h
  split at h
  · simp at h; subst h; decide
  · simp only [List.mem_reverse, List.mem_map] at h
    obtain ⟨d, hd, rfl⟩ := h
    exact isDigit_digitChar (Nat.digits_lt_base (by norm_num) hd)

theorem natToChars_ne_nil (n : ℕ) : natToChars n ≠ [] := by
  unfold natToChars
  split
  · simp
  · simp [Nat.digits_ne_nil_iff_ne_zero, *]

theorem charsToNat_natToChars (n : ℕ) : charsToNat (natToChars n) = n := by
  unfold charsToNat natToChars
  split
  · subst n; decide
  · rw [List.map_reverse, List.reverse_reverse, List.map_map]
    have h2 : ∀ d ∈ Nat.digits 10 n, (charDigit ∘ Nat.digitChar) d = id d :=
      fun d hd => charDigit_digitChar (Nat.digits_lt_base (by norm_num) hd)
    rw [List.map_congr_left h2, List.map_id, Nat.ofDigits_digits]

theorem charsToNat_append (a b : List Char) :
    charsToNat (a ++ b) = charsToNat a * 10 ^ b.length + charsToNat b := by
  unfold charsToNat
  rw [List.map_append, List.reverse_append, Nat.ofDigits_append]
  simp [Nat.mul_comm]
  ring

theorem charsToNat_replicate_zero (z : ℕ) :
    charsToNat (List.replicate z '0') = 0 := by
  induction z with
  | zero => decide
  | succ z ih =>
    rw [List.replicate_succ', charsToNat_append, ih]
    decide

/-! ### The JSON layer: `json.dump(…, indent=4)` and `json.load`

Embedded for the documents this module writes and reads: a top-level
object (or scalar) whose values are scalars.  The printer reproduces the
`indent=4` layout byte for byte; the parser is a real lexer over
`List Char` that fails on non-JSON text, as `json.load` does. -/

/-- A JSON number token: optional minus sign, then an unsigned literal. -/
def parseJsonNumber (cs : List Char) : Option (ℚ × List Char) :=
  match cs with
  | '-' :: t => (parseUnsigned t).map fun p => (-p.1, p.2)
  | _ => parseUnsigned cs

/-- A JSON string token (no escape sequences occur in these documents). -/
def parseJsonString (cs : List Char) : Option (String × List Char) :=
  match cs with
  | '"' :: t =>
    match t.dropWhile (fun c => c ≠ '"') with
    | '"' :: r => Option.some (String.mk (t.takeWhile fun c => c ≠ '"'), r)
    | _ => Option.none
  | _ => Option.none

/-- A scalar JSON value: string, `true`, `false`, `null`, or a number. -/
def parseScalar (cs : List Char) : Option (PyValue × List Char) :=
  if cs.head? = Option.some '"' then
    (parseJsonString cs).map fun p => (.str p.1, p.2)
  else if cs.take 4 = ['t', 'r', 'u', 'e'] then Option.some (.bool true, cs.drop 4)
  else if cs.take 5 = ['f', 'a', 'l', 's', 'e'] then Option.some (.bool false, cs.drop 5)
  else if cs.take 4 = ['n', 'u', 'l', 'l'] then Option.some (.none, cs.drop 4)
  else (parseJsonNumber cs).map fun p => (.num p.1, p.2)

/-- Nonempty member list of a JSON object: `"key": value` pairs separated by
commas, whitespace-insensitive; returns the members and the input after the
last member (whitespace stripped, so a well-formed object continues with
`\x7d`).  Fuel bounds the recursion; one unit per member suffices. -/
def parseMembers : ℕ → List Char → Option (List (String × PyValue) × List Char)
  | 0, _ => Option.none
  | fuel + 1, cs0 =>
    match parseJsonString (cs0.dropWhile isWs) with
    | Option.none => Option.none
    | Option.some (k, r1) =>
      match r1.dropWhile isWs with
      | ':' :: r2 =>
        match parseScalar (r2.dropWhile isWs) with
        | Option.none => Option.none
        | Option.some (v, r3) =>
          match r3.dropWhile isWs with
          | ',' :: r4 =>
            match parseMembers fuel r4 with
            | Option.some (tl, r5) => Option.some ((k, v) :: tl, r5)
            | Option.none => Option.none
          | r3' => Option.some ([(k, v)], r3')
      | _ => Option.none

/-- A parsed top-level JSON document: an object (what this module writes) or
a bare scalar (which `from_dict` then rejects with `AttributeError`). -/
inductive JsonTop where
  | obj (entries : List (String × PyValue))
  | scalar (v : PyValue)
deriving DecidableEq, Repr

/-- One top-level JSON value and the remaining input. -/
def parseJson (cs0 : List Char) : Option (JsonTop × List Char) :=
  match cs0.dropWhile isWs with
  | '\x7b' :: r =>
    if (r.dropWhile isWs).head? = Option.some '\x7d' then
      Option.some (.obj [], (r.dropWhile isWs).tail)
    else
      match parseMembers cs0.length (r.dropWhile isWs) with
      | Option.some (entries, '\x7d' :: rest2) => Option.some (.obj entries, rest2)
      | _ => Option.none
  | cs => (parseScalar cs).map fun p => (.scalar p.1, p.2)

/-- `json.load`: parse one document, demand nothing but whitespace after it;
any failure is a `json.JSONDecodeError`. -/
def loads (s : String) : Except PyError JsonTop :=
  match parseJson s.data with
  | Option.some (v, rest) =>
    if (rest.dropWhile isWs).isEmpty then .ok v
    else .error (.jsonDecodeError "Extra data")
  | Option.none => .error (.jsonDecodeError "Expecting value")

/-- Serialized form of a scalar value. -/
def dumpValue : PyValue → List Char
  | .num q => floatRepr q
  | .str s => '"' :: s.data ++ ['"']
  | .bool true => ['t', 'r', 'u', 'e']
  | .bool false => ['f', 'a', 'l', 's', 'e']
  | .none => ['n', 'u', 'l', 'l']

/-- One member line under `indent=4`: four spaces, the quoted key, a colon,
a space, the value. -/
def dumpEntry (e : String × PyValue) : List Char :=
  ' ' :: ' ' :: ' ' :: ' ' :: '"' :: (e.1.data ++ '"' :: ':' :: ' ' :: dumpValue e.2)

/-- Member lines joined by `,\n`. -/
def dumpMembers : List (String × PyValue) → List Char
  | [] => []
  | [e] => dumpEntry e
  | e :: tl => dumpEntry e ++ ',' :: '\n' :: dumpMembers tl

/-- `json.dump(entries, f, indent=4)` for a flat object. -/
def dumps (entries : List (String × PyValue)) : String :=
  match entries with
  | [] => String.mk ['\x7b', '\x7d']
  | _ => String.mk ('\x7b' :: '\n' :: (dumpMembers entries ++ '\n' :: ['\x7d']))

namespace MachineSettings

/-- `save(self, filepath)`: write the serialized `to_dict` to the location,
overwriting it (directory creation and `IOError` have no observable effect
on the stored mapping, the only state this model tracks). -/
def save (s : MachineSettings) (path : String) (fs : String → Option String) :
    String → Option String :=
  fun p => if p = path then Option.some (dumps (to_dict s)) else fs p

/-- Dispatch on the parsed document inside `load`: `json.JSONDecodeError`
propagates; an object goes to `from_dict`, whose `ValueError`/`KeyError`
propagate; a non-object makes `from_dict` crash on `data.keys()` with
`AttributeError`. -/
def loadParsed : Except PyError JsonTop → Except PyError MachineSettings
  | .error e => .error e
  | .ok (.obj entries) => from_dict entries
  | .ok (.scalar _) => .error .attributeError

/-- `load(cls, filepath)`: a missing file falls back to `cls()` (defaults,
re-validated by `__post_init__`); a present file is parsed and decoded. -/
def load (path : String) (fs : String → Option String) :
    Except PyError MachineSettings :=
  match fs path with
  | Option.none => (post_init defaults).map fun _ => defaults
  | Option.some content => loadParsed (loads content)

end MachineSettings

/-! ### Round-trip lemmas: the parser reads back what the printer wrote -/

theorem takeWhile_append_all {α} {p : α → Bool} {l r : List α}
    (hl : ∀ c ∈ l, p c = true) (hr : ∀ c, r.head? = Option.some c → p c = false) :
    (l ++ r).takeWhile p = l ∧ (l ++ r).dropWhile p = r := by
  induction l with
  | nil =>
    simp only [List.nil_append]
    cases r with
    | nil => simp
    | cons c t =>
      have := hr c rfl
      simp [List.takeWhile_cons, List.dropWhile_cons, this]
  | cons a l ih =>
    have ha := hl a (by simp)
    have ih' := ih fun c hc => hl c (by simp [hc])
    simp [List.takeWhile_cons, List.dropWhile_cons, ha, ih'.1, ih'.2]

theorem parseUnsigned_digits {ip fp : List Char} (hip : ip ≠ []) (hfp : fp ≠ [])
    (hipd : ∀ c ∈ ip, c.isDigit = true) (hfpd : ∀ c ∈ fp, c.isDigit = true)
    {rest : List Char} (hr : ∀ c, rest.head? = Option.some c → c.isDigit = false) :
    parseUnsigned (ip ++ '.' :: (fp ++ rest)) =
      Option.some ((charsToNat ip : ℚ) + (charsToNat fp : ℚ) / 10 ^ fp.length, rest) := by
  have h1 := takeWhile_append_all (r := '.' :: (fp ++ rest)) hipd
    (by intro c hc; simp only [List.head?_cons, Option.some.injEq] at hc; subst hc; decide)
  have h2 := takeWhile_append_all (r := rest) hfpd hr
  simp [parseUnsigned, h1.1, h1.2, h2.1, h2.2, List.isEmpty_iff, hip, hfp]

theorem parseUnsigned_floatReprNN {q : ℚ} (hq : 0 ≤ q) (hd : IsDecimal q)
    {rest : List Char} (hr : ∀ c, rest.head? = Option.some c → c.isDigit = false) :
    parseUnsigned (floatReprNN q ++ rest) = Option.some (q, rest) := by
  set k := q.den with hkdef
  set m := (q * 10 ^ k).num.toNat with hmdef
  set ds0 := natToChars m with hds0def
  set ds : List Char := List.replicate (k + 1 - ds0.length) '0' ++ ds0 with hdsdef
  have hrepr : floatReprNN q = ds.take (ds.length - k) ++ '.' :: ds.drop (ds.length - k) := rfl
  have hkpos : 0 < k := by rw [hkdef]; exact q.den_pos
  have hlen0 : 0 < ds0.length := List.length_pos.mpr (natToChars_ne_nil m)
  have hlends : k + 1 ≤ ds.length := by
    rw [hdsdef, List.length_append, List.length_replicate]; omega
  have hdig : ∀ c ∈ ds, c.isDigit = true := by
    intro c hc
    rw [hdsdef] at hc
    rcases List.mem_append.mp hc with h | h
    · rw [List.eq_of_mem_replicate h]; decide
    · exact natToChars_digits h
  have hipne : ds.take (ds.length - k) ≠ [] := by
    apply List.ne_nil_of_length_pos
    rw [List.length_take]; omega
  have hfpne : ds.drop (ds.length - k) ≠ [] := by
    apply List.ne_nil_of_length_pos
    rw [List.length_drop]; omega
  have hfplen : (ds.drop (ds.length - k)).length = k := by rw [List.length_drop]; omega
  have harr : floatReprNN q ++ rest
      = ds.take (ds.length - k) ++ '.' :: (ds.drop (ds.length - k) ++ rest) := by
    rw [hrepr]; simp
  rw [harr, parseUnsigned_digits hipne hfpne
    (fun c hc => hdig c (List.mem_of_mem_take hc))
    (fun c hc => hdig c (List.mem_of_mem_drop hc)) hr, hfplen]
  have hm_eq : charsToNat ds = m := by
    rw [hdsdef, charsToNat_append, charsToNat_replicate_zero, charsToNat_natToChars]; ring
  have hsum : charsToNat (ds.take (ds.length - k)) * 10 ^ k
      + charsToNat (ds.drop (ds.length - k)) = m := by
    conv_rhs => rw [← hm_eq, ← List.take_append_drop (ds.length - k) ds]
    rw [charsToNat_append, hfplen]
  have hnn : 0 ≤ (q * 10 ^ k).num := Rat.num_nonneg.mpr (by positivity)
  have hnum : ((q * 10 ^ k).num : ℚ) = q * 10 ^ k := by
    have h := Rat.num_div_den (q * 10 ^ k)
    unfold IsDecimal at hd
    rw [← hkdef] at hd
    rw [hd] at h
    simpa using h
  have hcast : (m : ℚ) = q * 10 ^ k := by
    have h1 : ((q * 10 ^ k).num.toNat : ℤ) = (q * 10 ^ k).num := Int.toNat_of_nonneg hnn
    rw [hmdef]
    calc ((q * 10 ^ k).num.toNat : ℚ) = (((q * 10 ^ k).num.toNat : ℤ) : ℚ) := by push_cast; ring
    _ = ((q * 10 ^ k).num : ℚ) := by rw [h1]
    _ = q * 10 ^ k := hnum
  have h10 : (10 : ℚ) ^ k ≠ 0 := by positivity
  have hfinal : (charsToNat (ds.take (ds.length - k)) : ℚ)
      + (charsToNat (ds.drop (ds.length - k)) : ℚ) / 10 ^ k = q := by
    have hQ := congrArg (fun n : ℕ => (n : ℚ)) hsum
    push_cast at hQ
    field_simp
    linarith [hQ, hcast]
  rw [hfinal]

theorem floatReprNN_head (q : ℚ) :
    ∃ c t, floatReprNN q = c :: t ∧ c.isDigit = true := by
  set k := q.den with hkdef
  set m := (q * 10 ^ k).num.toNat with hmdef
  set ds0 := natToChars m with hds0def
  set ds : List Char := List.replicate (k + 1 - ds0.length) '0' ++ ds0 with hdsdef
  have hkpos : 0 < k := by rw [hkdef]; exact q.den_pos
  have hlen0 : 0 < ds0.length := List.length_pos.mpr (natToChars_ne_nil m)
  have hlends : k + 1 ≤ ds.length := by
    rw [hdsdef, List.length_append, List.length_replicate]; omega
  have hdig : ∀ c ∈ ds, c.isDigit = true := by
    intro c hc
    rw [hdsdef] at hc
    rcases List.mem_append.mp hc with h | h
    · rw [List.eq_of_mem_replicate h]; decide
    · exact natToChars_digits h
  have hrepr : floatReprNN q = ds.take (ds.length - k) ++ '.' :: ds.drop (ds.length - k) := rfl
  obtain ⟨c, t, hct⟩ : ∃ c t, ds.take (ds.length - k) = c :: t := by
    cases h : ds.take (ds.length - k) with
    | nil =>
      exfalso
      have hl := congrArg List.length h
      rw [List.length_take] at hl
      simp at hl
      omega
    | cons c t => exact ⟨c, t, rfl⟩
  refine ⟨c, t ++ '.' :: ds.drop (ds.length - k), ?_, ?_⟩
  · rw [hrepr, hct]; simp
  · exact hdig c (List.mem_of_mem_take (hct ▸ List.mem_cons_self c t))

theorem floatRepr_head (q : ℚ) :
    ∃ c t, floatRepr q = c :: t ∧ (c = '-' ∨ c.isDigit = true) := by
  unfold floatRepr; split
  · exact ⟨'-', floatReprNN (-q), rfl, Or.inl rfl⟩
  · obtain ⟨c, t, he, hc⟩ := floatReprNN_head q
    exact ⟨c, t, he, Or.inr hc⟩

theorem isWs_eq_false_of_isDigit {c : Char} (h : c.isDigit = true) :
    isWs c = false := by
  have h1 : c ≠ ' ' := fun e => by subst e; exact absurd h (by decide)
  have h2 : c ≠ '\n' := fun e => by subst e; exact absurd h (by decide)
  have h3 : c ≠ '\t' := fun e => by subst e; exact absurd h (by decide)
  have h4 : c ≠ '\r' := fun e => by subst e; exact absurd h (by decide)
  simp [isWs, h1, h2, h3, h4]

theorem parseJsonNumber_floatRepr {q : ℚ} (hd : IsDecimal q)
    {rest : List Char} (hr : ∀ c, rest.head? = Option.some c → c.isDigit = false) :
    parseJsonNumber (floatRepr q ++ rest) = Option.some (q, rest) := by
  by_cases hq : q < 0
  · have hd' : IsDecimal (-q) := by
      unfold IsDecimal at *
      rw [Rat.neg_den, neg_mul, Rat.neg_den]
      exact hd
    unfold floatRepr
    rw [if_pos hq, List.cons_append]
    simp [parseJsonNumber,
      parseUnsigned_floatReprNN (neg_nonneg.mpr hq.le) hd' hr]
  · push_neg at hq
    have hmain := parseUnsigned_floatReprNN hq hd hr
    unfold floatRepr
    rw [if_neg (not_lt.mpr hq)]
    obtain ⟨c, t, he, hc⟩ := floatReprNN_head q
    rw [he, List.cons_append] at hmain ⊢
    unfold parseJsonNumber
    split
    · rename_i t' heq
      rw [List.cons.injEq] at heq
      rw [heq.1] at hc
      exact absurd hc (by decide)
    · exact hmain

theorem parseScalar_num {q : ℚ} (hq : IsDecimal q) {rest : List Char}
    (hr : ∀ c, rest.head? = Option.some c → c.isDigit = false) :
    parseScalar (floatRepr q ++ rest) = Option.some (.num q, rest) := by
  obtain ⟨c, t, he, hc⟩ := floatRepr_head q
  have hneq : ∀ c0 : Char, ('-' : Char) ≠ c0 → c0.isDigit = false → c ≠ c0 := by
    intro c0 hm h0 e
    rcases hc with e2 | h
    · exact hm (e.symm.trans e2).symm
    · rw [e] at h
      rw [h] at h0
      cases h0
  have hc1 : c ≠ '"' := hneq _ (by decide) (by decide)
  have hc2 : c ≠ 't' := hneq _ (by decide) (by decide)
  have hc3 : c ≠ 'f' := hneq _ (by decide) (by decide)
  have hc4 : c ≠ 'n' := hneq _ (by decide) (by decide)
  have hmain := parseJsonNumber_floatRepr hq hr (q := q)
  rw [he, List.cons_append] at hmain ⊢
  simp [parseScalar, hc1, hc2, hc3, hc4, hmain, List.take_succ_cons]

theorem parseJsonString_append {k : String} (hk : '"' ∉ k.data) (rest : List Char) :
    parseJsonString ('"' :: (k.data ++ '"' :: rest)) = Option.some (k, rest) := by
  obtain ⟨kd⟩ := k
  have h := takeWhile_append_all (p := fun c => decide (c ≠ '"')) (l := kd)
    (r := '"' :: rest)
    (fun c hc => by
      simp only [decide_eq_true_eq]
      exact fun e => hk (e ▸ hc))
    (by intro c hc; simp only [List.head?_cons, Option.some.injEq] at hc; subst hc; simp)
  simp only [parseJsonString]
  rw [h.2]
  simp only [h.1]

theorem dropWhile_isWs_cons_true {c : Char} (h : isWs c = true) (l : List Char) :
    (c :: l).dropWhile isWs = l.dropWhile isWs := by
  rw [List.dropWhile_cons, h]
  simp

theorem dropWhile_isWs_cons_false {c : Char} (h : isWs c = false) (l : List Char) :
    (c :: l).dropWhile isWs = c :: l := by
  rw [List.dropWhile_cons, h]
  simp

theorem parseMembers_cons_ws (f : ℕ) (cs : List Char) :
    parseMembers f ('\n' :: cs) = parseMembers f cs := by
  cases f with
  | zero => rfl
  | succ f =>
    have h : ('\n' :: cs).dropWhile isWs = cs.dropWhile isWs := by
      rw [List.dropWhile_cons]
      norm_num [isWs]
    simp only [parseMembers, h]

theorem parseMembers_dumpEntry (fuel : ℕ) (k : String) (q : ℚ)
    (hk : '"' ∉ k.data) (hq : IsDecimal q) (after : List Char)
    (h1 : ∀ c, after.head? = Option.some c → c.isDigit = false) :
    parseMembers (fuel + 1) (dumpEntry (k, PyValue.num q) ++ after) =
      (match after.dropWhile isWs with
       | ',' :: r4 =>
         (match parseMembers fuel r4 with
          | Option.some (tl, r5) =>
            Option.some (((k, PyValue.num q) :: tl : List (String × PyValue)), r5)
          | Option.none => Option.none)
       | r3' => Option.some ([(k, PyValue.num q)], r3')) := by
  obtain ⟨c, t, hct, hcd⟩ := floatRepr_head q
  have hcw : isWs c = false := by
    rcases hcd with rfl | h
    · decide
    · exact isWs_eq_false_of_isDigit h
  have e0 : dumpEntry (k, PyValue.num q) ++ after
      = ' ' :: ' ' :: ' ' :: ' ' ::
        ('"' :: (k.data ++ '"' :: (':' :: ' ' :: (floatRepr q ++ after)))) := by
    simp [dumpEntry, dumpValue]
  have e1 : (' ' :: ' ' :: ' ' :: ' ' ::
        ('"' :: (k.data ++ '"' :: (':' :: ' ' :: (floatRepr q ++ after))))).dropWhile isWs
      = '"' :: (k.data ++ '"' :: (':' :: ' ' :: (floatRepr q ++ after))) := by
    simp [List.dropWhile_cons, isWs]
  have e2 := parseJsonString_append hk (':' :: ' ' :: (floatRepr q ++ after))
  have e3 : ((':' :: ' ' :: (floatRepr q ++ after)) : List Char).dropWhile isWs
      = ':' :: ' ' :: (floatRepr q ++ after) := by
    rw [dropWhile_isWs_cons_false (by decide)]
  have e4 : ((' ' :: (floatRepr q ++ after)) : List Char).dropWhile isWs
      = floatRepr q ++ after := by
    rw [dropWhile_isWs_cons_true (by decide), hct, List.cons_append,
      dropWhile_isWs_cons_false hcw]
  have e5 := parseScalar_num hq h1 (q := q)
  rw [e0]
  simp only [parseMembers, e1, e2, e3, e4, e5]

theorem parseMembers_dump (entries : List (String × PyValue)) :
    ∀ (fuel : ℕ) (tail : List Char),
      entries ≠ [] → entries.length ≤ fuel →
      (∀ e ∈ entries, '"' ∉ e.1.data ∧ ∃ q, e.2 = PyValue.num q ∧ IsDecimal q) →
      parseMembers fuel (dumpMembers entries ++ '\n' :: '\x7d' :: tail) =
        Option.some (entries, '\x7d' :: tail) := by
  induction entries with
  | nil => intro fuel tail hne _ _; exact absurd rfl hne
  | cons e tl ih =>
    intro fuel tail _ hlen hwf
    obtain ⟨k, v⟩ := e
    obtain ⟨hk, q, hv, hq⟩ := hwf (k, v) (List.mem_cons_self _ _)
    subst hv
    cases fuel with
    | zero => simp at hlen
    | succ fuel =>
      cases tl with
      | nil =>
        have hstep := parseMembers_dumpEntry fuel k q hk hq ('\n' :: '\x7d' :: tail)
          (by
            intro c hc
            simp only [List.head?_cons, Option.some.injEq] at hc
            subst hc
            decide)
        have harr : dumpMembers [(k, PyValue.num q)] ++ '\n' :: '\x7d' :: tail
            = dumpEntry (k, PyValue.num q) ++ ('\n' :: '\x7d' :: tail) := by
          simp [dumpMembers]
        rw [harr, hstep, dropWhile_isWs_cons_true (by decide),
          dropWhile_isWs_cons_false (by decide)]
        rfl
      | cons e2 tl2 =>
        have hstep := parseMembers_dumpEntry fuel k q hk hq
          (',' :: '\n' :: (dumpMembers (e2 :: tl2) ++ '\n' :: '\x7d' :: tail))
          (by
            intro c hc
            simp only [List.head?_cons, Option.some.injEq] at hc
            subst hc
            decide)
        have harr : dumpMembers ((k, PyValue.num q) :: e2 :: tl2) ++ '\n' :: '\x7d' :: tail
            = dumpEntry (k, PyValue.num q)
              ++ (',' :: '\n' :: (dumpMembers (e2 :: tl2) ++ '\n' :: '\x7d' :: tail)) := by
          simp [dumpMembers]
        have hih := ih fuel tail (by simp)
          (by simp only [List.length_cons] at hlen ⊢; omega)
          (fun x hx => hwf x (List.mem_cons_of_mem _ hx))
        rw [harr, hstep, dropWhile_isWs_cons_false (by decide)]
        simp only [parseMembers_cons_ws, hih]

theorem parseMembers_congr_ws {a b : List Char}
    (h : a.dropWhile isWs = b.dropWhile isWs) (f : ℕ) :
    parseMembers f a = parseMembers f b := by
  cases f with
  | zero => rfl
  | succ f => simp only [parseMembers, h]

theorem dumpMembers_cons_shape (e : String × PyValue) (tl : List (String × PyValue)) :
    ∃ B, dumpMembers (e :: tl) = ' ' :: ' ' :: ' ' :: ' ' :: '"' :: B := by
  cases tl with
  | nil => exact ⟨e.1.data ++ '"' :: ':' :: ' ' :: dumpValue e.2, rfl⟩
  | cons e2 tl2 =>
    refine ⟨(e.1.data ++ '"' :: ':' :: ' ' :: dumpValue e.2)
      ++ ',' :: '\n' :: dumpMembers (e2 :: tl2), ?_⟩
    simp [dumpMembers, dumpEntry]

theorem length_le_dumpMembers (entries : List (String × PyValue)) :
    entries.length ≤ (dumpMembers entries).length := by
  induction entries with
  | nil => simp [dumpMembers]
  | cons e tl ih =>
    cases tl with
    | nil => simp [dumpMembers, dumpEntry]
    | cons e2 tl2 =>
      simp only [dumpMembers, List.length_append, List.length_cons] at *
      omega

theorem loads_dumps (entries : List (String × PyValue)) (hne : entries ≠ [])
    (hwf : ∀ e ∈ entries, '"' ∉ e.1.data ∧ ∃ q, e.2 = PyValue.num q ∧ IsDecimal q) :
    loads (dumps entries) = .ok (.obj entries) := by
  obtain ⟨e, tl, rfl⟩ : ∃ e tl, entries = e :: tl := by
    cases entries with
    | nil => exact absurd rfl hne
    | cons e tl => exact ⟨e, tl, rfl⟩
  obtain ⟨B, hB⟩ := dumpMembers_cons_shape e tl
  have hdata : (dumps (e :: tl)).data
      = '\x7b' :: '\n' :: (dumpMembers (e :: tl) ++ '\n' :: ['\x7d']) := rfl
  have h1 : ('\x7b' :: '\n' :: (dumpMembers (e :: tl) ++ '\n' :: ['\x7d'])).dropWhile isWs
      = '\x7b' :: '\n' :: (dumpMembers (e :: tl) ++ '\n' :: ['\x7d']) :=
    dropWhile_isWs_cons_false (by decide) _
  have h2 : (('\n' :: (dumpMembers (e :: tl) ++ '\n' :: ['\x7d'])) : List Char).dropWhile isWs
      = '"' :: (B ++ '\n' :: ['\x7d']) := by
    rw [dropWhile_isWs_cons_true (by decide), hB]
    simp only [List.cons_append]
    rw [dropWhile_isWs_cons_true (by decide), dropWhile_isWs_cons_true (by decide),
      dropWhile_isWs_cons_true (by decide), dropWhile_isWs_cons_true (by decide),
      dropWhile_isWs_cons_false (by decide)]
  have hws : (('"' :: (B ++ '\n' :: ['\x7d'])) : List Char).dropWhile isWs
      = (dumpMembers (e :: tl) ++ '\n' :: '\x7d' :: []).dropWhile isWs := by
    rw [dropWhile_isWs_cons_false (by decide), hB]
    simp only [List.cons_append]
    rw [dropWhile_isWs_cons_true (by decide), dropWhile_isWs_cons_true (by decide),
      dropWhile_isWs_cons_true (by decide), dropWhile_isWs_cons_true (by decide),
      dropWhile_isWs_cons_false (by decide)]
  have hfuel : (e :: tl).length
      ≤ ('\x7b' :: '\n' :: (dumpMembers (e :: tl) ++ '\n' :: ['\x7d'])).length := by
    have := length_le_dumpMembers (e :: tl)
    simp only [List.length_cons, List.length_append] at *
    omega
  have h3 : ∀ f, (e :: tl).length ≤ f →
      parseMembers f ('"' :: (B ++ '\n' :: ['\x7d']))
        = Option.some (e :: tl, '\x7d' :: []) := fun f hf =>
    (parseMembers_congr_ws hws f).trans
      (parseMembers_dump (e :: tl) f [] (by simp) hf hwf)
  unfold loads
  rw [hdata]
  simp only [parseJson, h1, h2]
  rw [if_neg (by simp), h3 _ hfuel]
  rfl

/-! ### Construction and decoding lemmas -/

namespace MachineSettings

theorem mk'_ok_of_invariants {bw bh fr up dn sz : ℚ}
    (h : invariantsHold ⟨bw, bh, fr, up, dn, sz⟩) :
    mk' bw bh fr up dn sz = .ok ⟨bw, bh, fr, up, dn, sz⟩ := by
  obtain ⟨⟨h1, h2⟩, ⟨h3, h4⟩, ⟨h5, h6⟩, h7, h8⟩ := h
  have h7' : ¬ ((⟨bw, bh, fr, up, dn, sz⟩ : MachineSettings).pen_down_position
      > (⟨bw, bh, fr, up, dn, sz⟩ : MachineSettings).pen_up_position) := not_lt.mpr h7
  have h8' : ¬ ((⟨bw, bh, fr, up, dn, sz⟩ : MachineSettings).safe_z
      < (⟨bw, bh, fr, up, dn, sz⟩ : MachineSettings).pen_up_position) := not_lt.mpr h8
  simp [mk', post_init, validate_dimensions, validate_feed_rate, validate_z_positions,
    h1, h2, h3, h4, h5, h6, h7', h8', Except.map]

theorem mk'_ok_inv {bw bh fr up dn sz : ℚ} {s : MachineSettings}
    (h : mk' bw bh fr up dn sz = .ok s) :
    s = ⟨bw, bh, fr, up, dn, sz⟩ ∧ invariantsHold s := by
  simp only [mk', post_init, validate_dimensions, validate_feed_rate,
    validate_z_positions] at h
  split_ifs at h with h1 h2 h3 h4 h5 <;> simp only [Except.map] at h <;> cases h
  push_neg at h1 h2 h3
  exact ⟨rfl, ⟨h1.1, h1.2⟩, ⟨h2.1, h2.2⟩, ⟨h3.1, h3.2⟩, not_lt.mp h4, not_lt.mp h5⟩

theorem invariantsHold_defaults : invariantsHold defaults := by
  refine ⟨⟨?_, ?_⟩, ⟨?_, ?_⟩, ⟨?_, ?_⟩, ?_, ?_⟩ <;>
    norm_num [defaults, MIN_DIMENSION, MAX_DIMENSION, MIN_FEED_RATE, MAX_FEED_RATE]

theorem mk'_error_width {bw bh fr up dn sz : ℚ}
    (h : ¬ (MIN_DIMENSION ≤ bw ∧ bw ≤ MAX_DIMENSION)) :
    mk' bw bh fr up dn sz
      = .error (.valueError "Bed width must be between 0.1 and 1000.0mm") := by
  simp [mk', post_init, validate_dimensions, h, Except.map]

theorem mk'_error_height {bw bh fr up dn sz : ℚ}
    (h1 : MIN_DIMENSION ≤ bw ∧ bw ≤ MAX_DIMENSION)
    (h : ¬ (MIN_DIMENSION ≤ bh ∧ bh ≤ MAX_DIMENSION)) :
    mk' bw bh fr up dn sz
      = .error (.valueError "Bed height must be between 0.1 and 1000.0mm") := by
  simp [mk', post_init, validate_dimensions, h1.1, h1.2, h, Except.map]

theorem mk'_error_feed {bw bh fr up dn sz : ℚ}
    (h1 : MIN_DIMENSION ≤ bw ∧ bw ≤ MAX_DIMENSION)
    (h2 : MIN_DIMENSION ≤ bh ∧ bh ≤ MAX_DIMENSION)
    (h : ¬ (MIN_FEED_RATE ≤ fr ∧ fr ≤ MAX_FEED_RATE)) :
    mk' bw bh fr up dn sz
      = .error (.valueError "Feed rate must be between 1.0 and 5000.0mm/min") := by
  simp [mk', post_init, validate_dimensions, validate_feed_rate,
    h1.1, h1.2, h2.1, h2.2, h, Except.map]

theorem mk'_error_pen {bw bh fr up dn sz : ℚ}
    (h1 : MIN_DIMENSION ≤ bw ∧ bw ≤ MAX_DIMENSION)
    (h2 : MIN_DIMENSION ≤ bh ∧ bh ≤ MAX_DIMENSION)
    (h3 : MIN_FEED_RATE ≤ fr ∧ fr ≤ MAX_FEED_RATE)
    (h : dn > up) :
    mk' bw bh fr up dn sz
      = .error (.valueError "Pen down position must be lower than pen up position") := by
  simp [mk', post_init, validate_dimensions, validate_feed_rate, validate_z_positions,
    h1.1, h1.2, h2.1, h2.2, h3.1, h3.2, h, Except.map]

theorem mk'_error_safe {bw bh fr up dn sz : ℚ}
    (h1 : MIN_DIMENSION ≤ bw ∧ bw ≤ MAX_DIMENSION)
    (h2 : MIN_DIMENSION ≤ bh ∧ bh ≤ MAX_DIMENSION)
    (h3 : MIN_FEED_RATE ≤ fr ∧ fr ≤ MAX_FEED_RATE)
    (h4 : dn ≤ up) (h : sz < up) :
    mk' bw bh fr up dn sz
      = .error (.valueError "Safe Z must be higher than pen up position") := by
  simp [mk', post_init, validate_dimensions, validate_feed_rate, validate_z_positions,
    h1.1, h1.2, h2.1, h2.2, h3.1, h3.2, not_lt.mpr h4, h, Except.map]

theorem wrapInvalid_ok_iff {r : Except PyError MachineSettings} {s : MachineSettings} :
    wrapInvalid r = .ok s ↔ r = .ok s := by
  cases r <;> simp [wrapInvalid]

theorem wrapInvalid_ne_keyError {r : Except PyError MachineSettings} (l : List String) :
    wrapInvalid r ≠ .error (.keyError l) := by
  cases r <;> simp [wrapInvalid]

theorem wrapInvalid_error_shape {r : Except PyError MachineSettings} {e : PyError}
    (h : wrapInvalid r = .error e) :
    ∃ m, e = .valueError ("Invalid setting value: " ++ m) := by
  cases r with
  | error e' =>
    simp only [wrapInvalid] at h
    injection h with h
    exact ⟨errMsg e', h.symm⟩
  | ok s => simp [wrapInvalid] at h

theorem decodeFields_conv_error {data : List (String × PyValue)} {e : PyError}
    (hcv : convertRequired data = .error e) : decodeFields data = .error e := by
  unfold decodeFields
  rw [hcv]

theorem decodeFields_conv_ok {data : List (String × PyValue)} {conv : List (String × ℚ)}
    (hcv : convertRequired data = .ok conv) :
    decodeFields data = mk' (getQ conv "bed_width") (getQ conv "bed_height")
      (getQ conv "feed_rate") (getQ conv "pen_up_position")
      (getQ conv "pen_down_position") (getQ conv "safe_z") := by
  unfold decodeFields
  rw [hcv]

theorem decodeFields_ok_invariants {data : List (String × PyValue)} {s : MachineSettings}
    (h : decodeFields data = .ok s) : invariantsHold s := by
  cases hcv : convertRequired data with
  | error e => rw [decodeFields_conv_error hcv] at h; cases h
  | ok conv => rw [decodeFields_conv_ok hcv] at h; exact (mk'_ok_inv h).2

theorem from_dict_of_missing {data : List (String × PyValue)}
    (hm : (required_keys.filter fun k => (data.lookup k).isNone) ≠ []) :
    from_dict data
      = .error (.keyError (required_keys.filter fun k => (data.lookup k).isNone)) := by
  unfold from_dict
  rw [if_pos hm]

theorem from_dict_of_all_present {data : List (String × PyValue)}
    (hall : (required_keys.filter fun k => (data.lookup k).isNone) = []) :
    from_dict data = wrapInvalid (decodeFields data) := by
  unfold from_dict
  rw [if_neg (by simp [hall])]

theorem from_dict_to_dict (bw bh fr up dn sz : ℚ) :
    from_dict (to_dict ⟨bw, bh, fr, up, dn, sz⟩)
      = wrapInvalid (mk' bw bh fr up dn sz) := rfl

theorem from_dict_to_dict_ok {s : MachineSettings} (h : invariantsHold s) :
    from_dict (to_dict s) = .ok s := by
  obtain ⟨bw, bh, fr, up, dn, sz⟩ := s
  rw [from_dict_to_dict, mk'_ok_of_invariants h]
  rfl

theorem from_dict_ok_invariants {data : List (String × PyValue)} {s : MachineSettings}
    (h : from_dict data = .ok s) : invariantsHold s := by
  by_cases hm : (required_keys.filter fun k => (data.lookup k).isNone) = []
  · rw [from_dict_of_all_present hm, wrapInvalid_ok_iff] at h
    exact decodeFields_ok_invariants h
  · rw [from_dict_of_missing hm] at h
    cases h

theorem from_dict_keyError_iff (data : List (String × PyValue)) (l : List String) :
    from_dict data = .error (.keyError l)
      ↔ l = required_keys.filter (fun k => (data.lookup k).isNone) ∧ l ≠ [] := by
  by_cases hm : (required_keys.filter fun k => (data.lookup k).isNone) = []
  · rw [from_dict_of_all_present hm]
    constructor
    · intro h
      exact absurd h (wrapInvalid_ne_keyError l)
    · rintro ⟨rfl, hne⟩
      exact absurd hm hne
  · rw [from_dict_of_missing hm]
    constructor
    · intro h
      injection h with h
      injection h with h
      exact ⟨h.symm, h ▸ hm⟩
    · rintro ⟨rfl, _⟩
      rfl

theorem from_dict_error_shape {data : List (String × PyValue)}
    (hall : (required_keys.filter fun k => (data.lookup k).isNone) = [])
    {e : PyError} (h : from_dict data = .error e) :
    ∃ m, e = .valueError ("Invalid setting value: " ++ m) := by
  rw [from_dict_of_all_present hall] at h
  exact wrapInvalid_error_shape h

theorem load_none {path : String} {fs : String → Option String}
    (h : fs path = Option.none) : load path fs = .ok defaults := by
  unfold load
  rw [h]
  show mk' 200 200 1000 1 0 1 = .ok defaults
  exact mk'_ok_of_invariants invariantsHold_defaults

theorem load_some {path : String} {fs : String → Option String} {c : String}
    (h : fs path = Option.some c) :
    load path fs = loadParsed (loads c) := by
  unfold load
  rw [h]

theorem load_parse_error {path : String} {fs : String → Option String} {c : String}
    {m : String} (h : fs path = Option.some c)
    (hp : loads c = .error (.jsonDecodeError m)) :
    load path fs = .error (.jsonDecodeError m) := by
  rw [load_some h, hp]
  rfl

theorem load_ok_invariants {path : String} {fs : String → Option String}
    {s : MachineSettings} (h : load path fs = .ok s) : invariantsHold s := by
  cases hfs : fs path with
  | none =>
    rw [load_none hfs] at h
    injection h with h
    rw [← h]
    exact invariantsHold_defaults
  | some c =>
    rw [load_some hfs] at h
    cases hl : loads c with
    | error e =>
      rw [hl] at h
      simp only [loadParsed] at h
      cases h
    | ok top =>
      cases top with
      | obj entries =>
        rw [hl] at h
        simp only [loadParsed] at h
        exact from_dict_ok_invariants h
      | scalar v =>
        rw [hl] at h
        simp only [loadParsed] at h
        cases h

theorem save_get {s : MachineSettings} {path : String} {fs : String → Option String} :
    save s path fs path = Option.some (dumps (to_dict s)) := by
  unfold save
  simp

theorem to_dict_entries_wf {s : MachineSettings}
    (hdec : IsDecimal s.bed_width ∧ IsDecimal s.bed_height ∧ IsDecimal s.feed_rate ∧
      IsDecimal s.pen_up_position ∧ IsDecimal s.pen_down_position ∧ IsDecimal s.safe_z) :
    ∀ e ∈ to_dict s, '"' ∉ e.1.data ∧ ∃ q, e.2 = PyValue.num q ∧ IsDecimal q := by
  intro e he
  simp only [to_dict, List.mem_cons, List.not_mem_nil, or_false] at he
  obtain ⟨h1, h2, h3, h4, h5, h6⟩ := hdec
  rcases he with rfl | rfl | rfl | rfl | rfl | rfl
  · exact ⟨(by decide : '"' ∉ "bed_width".data), s.bed_width, rfl, h1⟩
  · exact ⟨(by decide : '"' ∉ "bed_height".data), s.bed_height, rfl, h2⟩
  · exact ⟨(by decide : '"' ∉ "feed_rate".data), s.feed_rate, rfl, h3⟩
  · exact ⟨(by decide : '"' ∉ "pen_up_position".data), s.pen_up_position, rfl, h4⟩
  · exact ⟨(by decide : '"' ∉ "pen_down_position".data), s.pen_down_position, rfl, h5⟩
  · exact ⟨(by decide : '"' ∉ "safe_z".data), s.safe_z, rfl, h6⟩

theorem load_save {s : MachineSettings} {path : String} {fs : String → Option String}
    (hinv : invariantsHold s)
    (hdec : IsDecimal s.bed_width ∧ IsDecimal s.bed_height ∧ IsDecimal s.feed_rate ∧
      IsDecimal s.pen_up_position ∧ IsDecimal s.pen_down_position ∧ IsDecimal s.safe_z) :
    load path (save s path fs) = .ok s := by
  rw [load_some save_get,
    loads_dumps (to_dict s) (by simp [to_dict]) (to_dict_entries_wf hdec)]
  exact from_dict_to_dict_ok hinv

/-- One entry of the input mapping with its value passed through `float`
(when the key is required and the value converts). -/
def convertEntry (e : String × PyValue) : String × PyValue :=
  if e.1 ∈ required_keys then
    match pyFloat e.2 with
    | .ok q => (e.1, PyValue.num q)
    | .error _ => e
  else e

/-- The input mapping with every required value already passed through
`float`: what the spec means by "the mapping with those values already
converted to floats". -/
def convertMap (data : List (String × PyValue)) : List (String × PyValue) :=
  data.map convertEntry

theorem convertEntry_key (e : String × PyValue) : (convertEntry e).1 = e.1 := by
  unfold convertEntry
  split_ifs
  · cases pyFloat e.2 <;> rfl
  · rfl

theorem convertMap_lookup_isNone (data : List (String × PyValue)) (k : String) :
    ((convertMap data).lookup k).isNone = ((data.lookup k).isNone) := by
  induction data with
  | nil => rfl
  | cons e tl ih =>
    obtain ⟨k0, v0⟩ := e
    rcases he' : convertEntry (k0, v0) with ⟨k1, v1⟩
    have hk1 : k1 = k0 := by
      have h := convertEntry_key (k0, v0)
      rw [he'] at h
      exact h
    rw [hk1] at he'
    show ((convertEntry (k0, v0) :: convertMap tl).lookup k).isNone = _
    rw [he']
    simp only [List.lookup]
    cases hb : k == k0 with
    | true => rfl
    | false => exact ih

theorem convertRequired_convertMap (data : List (String × PyValue))
    (h : ∀ e ∈ data, e.1 ∈ required_keys → ∃ q, pyFloat e.2 = .ok q) :
    convertRequired (convertMap data) = convertRequired data := by
  induction data with
  | nil => rfl
  | cons e tl ih =>
    have htl := ih fun x hx => h x (List.mem_cons_of_mem _ hx)
    obtain ⟨k, v⟩ := e
    rw [show convertMap ((k, v) :: tl) = convertEntry (k, v) :: convertMap tl from rfl]
    by_cases hk : (k, v).1 ∈ required_keys
    · obtain ⟨q, hf⟩ := h (k, v) (List.mem_cons_self _ _) hk
      rw [show convertEntry (k, v) = (k, PyValue.num q) from by
        unfold convertEntry
        rw [if_pos hk, hf]]
      unfold convertRequired
      rw [if_pos hk, if_pos hk, hf, htl]
      rfl
    · rw [show convertEntry (k, v) = (k, v) from by
        unfold convertEntry
        rw [if_neg hk]]
      unfold convertRequired
      rw [if_neg hk, if_neg hk]
      exact htl

theorem from_dict_convertMap (data : List (String × PyValue))
    (h : ∀ e ∈ data, e.1 ∈ required_keys → ∃ q, pyFloat e.2 = .ok q) :
    from_dict data = from_dict (convertMap data) := by
  have hl : (required_keys.filter fun k => (((convertMap data).lookup k).isNone))
      = (required_keys.filter fun k => ((data.lookup k).isNone)) :=
    List.filter_congr fun k _ => convertMap_lookup_isNone data k
  by_cases hm : (required_keys.filter fun k => ((data.lookup k).isNone)) = []
  · rw [from_dict_of_all_present hm, from_dict_of_all_present (by rw [hl]; exact hm)]
    unfold decodeFields
    rw [convertRequired_convertMap data h]
  · rw [from_dict_of_missing hm, from_dict_of_missing (by rw [hl]; exact hm), hl]

/-- The exception class of a raised error: the one thing an ordinary
`except` clause can select on.  (`json.JSONDecodeError` is listed under its
own name; in Python it is a subclass of `ValueError`, so even it is not
separable from `ValueError` by class — the distinction matters to no claim.) -/
def pyErrorType : PyError → String
  | .valueError _ => "ValueError"
  | .typeError _ => "TypeError"
  | .keyError _ => "KeyError"
  | .jsonDecodeError _ => "JSONDecodeError"
  | .fileNotFoundError => "FileNotFoundError"
  | .attributeError => "AttributeError"

/-- The instances a program using this module can observe: anything built by
the constructor, `from_dict` or `load`, and anything obtained from an
observable instance by assigning one field (which the dataclass permits and
does not re-validate). -/
inductive Observable : MachineSettings → Prop
  | constructed {bw bh fr up dn sz : ℚ} {s : MachineSettings} :
      mk' bw bh fr up dn sz = .ok s → Observable s
  | decoded {data : List (String × PyValue)} {s : MachineSettings} :
      from_dict data = .ok s → Observable s
  | loaded {path : String} {fs : String → Option String} {s : MachineSettings} :
      load path fs = .ok s → Observable s
  | updated {s : MachineSettings} (u : FieldUpdate) :
      Observable s → Observable (applyUpdate s u)

/-! ### Concrete inputs used by the counterexamples and witnesses -/

/-- All six keys, numeric values, but `pen_down_position > pen_up_position`:
well-formed input whose decoded fields violate the ordering invariant. -/
def dInvalidZ : List (String × PyValue) :=
  [("bed_width", .num 200), ("bed_height", .num 200), ("feed_rate", .num 1000),
   ("pen_up_position", .num 1), ("pen_down_position", .num 5), ("safe_z", .num 1)]

/-- All six keys, but `bed_width` carries a non-numeric string:
malformed input (a `TypeMismatch` in the spec's taxonomy). -/
def dBadString : List (String × PyValue) :=
  [("bed_width", .str "abc"), ("bed_height", .num 200), ("feed_rate", .num 1000),
   ("pen_up_position", .num 1), ("pen_down_position", .num 0), ("safe_z", .num 1)]

/-- Five keys only: `safe_z` omitted. -/
def dMissingSafeZ : List (String × PyValue) :=
  [("bed_width", .num 200), ("bed_height", .num 200), ("feed_rate", .num 1000),
   ("pen_up_position", .num 1), ("pen_down_position", .num 0)]

/-- All six keys with numeric-string values whose decoded fields violate the
ordering invariant (`pen_down_position = "5" > pen_up_position = "1"`). -/
def dStrings : List (String × PyValue) :=
  [("bed_width", .str "200"), ("bed_height", .str "200"), ("feed_rate", .str "1000"),
   ("pen_up_position", .str "1"), ("pen_down_position", .str "5"), ("safe_z", .str "1")]

/-- All six keys with numeric-string values that decode to the defaults. -/
def dStringsValid : List (String × PyValue) :=
  [("bed_width", .str "200"), ("bed_height", .str "200"), ("feed_rate", .str "1000"),
   ("pen_up_position", .str "1"), ("pen_down_position", .str "0"), ("safe_z", .str "1")]

/-- A file system holding the unparseable text `\x7bnot json` at
`settings.json` and nothing anywhere else. -/
def fsDemo : String → Option String :=
  fun p => if p = "settings.json" then Option.some "\x7bnot json" else Option.none

theorem pyFloat_str_eval (n : ℕ) {s : String} {q' : ℚ}
    (h1 : pyFloat (PyValue.str s)
      = .ok (1 * (charsToNat (List.takeWhile Char.isDigit (List.dropWhile isWs s.data)) : ℚ)))
    (h2 : charsToNat (List.takeWhile Char.isDigit (List.dropWhile isWs s.data)) = n)
    (h3 : ((n : ℕ) : ℚ) = q') :
    pyFloat (PyValue.str s) = .ok q' := by
  rw [h1, h2, h3, one_mul]

theorem pyFloat_s200 : pyFloat (PyValue.str "200") = .ok 200 :=
  pyFloat_str_eval 200 rfl (by decide) (by norm_num)

theorem pyFloat_s1000 : pyFloat (PyValue.str "1000") = .ok 1000 :=
  pyFloat_str_eval 1000 rfl (by decide) (by norm_num)

theorem pyFloat_s1 : pyFloat (PyValue.str "1") = .ok 1 :=
  pyFloat_str_eval 1 rfl (by decide) (by norm_num)

theorem pyFloat_s0 : pyFloat (PyValue.str "0") = .ok 0 :=
  pyFloat_str_eval 0 rfl (by decide) (by norm_num)

theorem pyFloat_s5 : pyFloat (PyValue.str "5") = .ok 5 :=
  pyFloat_str_eval 5 rfl (by decide) (by norm_num)

theorem convertRequired_cons_req {k : String} {v : PyValue} {q : ℚ}
    {tl : List (String × PyValue)} {conv : List (String × ℚ)}
    (hk : k ∈ required_keys) (hv : pyFloat v = .ok q)
    (htl : convertRequired tl = .ok conv) :
    convertRequired ((k, v) :: tl) = .ok ((k, q) :: conv) := by
  unfold convertRequired
  rw [if_pos hk, hv, htl]
  rfl

/-- The converted field list produced for the ordering-violating inputs. -/
def convInvalid : List (String × ℚ) :=
  [("bed_width", 200), ("bed_height", 200), ("feed_rate", 1000),
   ("pen_up_position", 1), ("pen_down_position", 5), ("safe_z", 1)]

/-- The converted field list that decodes to the defaults. -/
def convValid : List (String × ℚ) :=
  [("bed_width", 200), ("bed_height", 200), ("feed_rate", 1000),
   ("pen_up_position", 1), ("pen_down_position", 0), ("safe_z", 1)]

theorem convertRequired_dInvalidZ : convertRequired dInvalidZ = .ok convInvalid := rfl

theorem convertRequired_dStrings : convertRequired dStrings = .ok convInvalid :=
  convertRequired_cons_req (by decide) pyFloat_s200
    (convertRequired_cons_req (by decide) pyFloat_s200
      (convertRequired_cons_req (by decide) pyFloat_s1000
        (convertRequired_cons_req (by decide) pyFloat_s1
          (convertRequired_cons_req (by decide) pyFloat_s5
            (convertRequired_cons_req (by decide) pyFloat_s1 rfl)))))

theorem convertRequired_dStringsValid :
    convertRequired dStringsValid = .ok convValid :=
  convertRequired_cons_req (by decide) pyFloat_s200
    (convertRequired_cons_req (by decide) pyFloat_s200
      (convertRequired_cons_req (by decide) pyFloat_s1000
        (convertRequired_cons_req (by decide) pyFloat_s1
          (convertRequired_cons_req (by decide) pyFloat_s0
            (convertRequired_cons_req (by decide) pyFloat_s1 rfl)))))

theorem getQ_mk_convInvalid :
    mk' (getQ convInvalid "bed_width") (getQ convInvalid "bed_height")
      (getQ convInvalid "feed_rate") (getQ convInvalid "pen_up_position")
      (getQ convInvalid "pen_down_position") (getQ convInvalid "safe_z")
    = mk' 200 200 1000 1 5 1 := rfl

theorem getQ_mk_convValid :
    mk' (getQ convValid "bed_width") (getQ convValid "bed_height")
      (getQ convValid "feed_rate") (getQ convValid "pen_up_position")
      (getQ convValid "pen_down_position") (getQ convValid "safe_z")
    = mk' 200 200 1000 1 0 1 := rfl

theorem invariants_200_200_1000_1_5_1 :
    mk' 200 200 1000 1 5 1
      = .error (.valueError "Pen down position must be lower than pen up position") :=
  mk'_error_pen
    (by norm_num [MIN_DIMENSION, MAX_DIMENSION])
    (by norm_num [MIN_DIMENSION, MAX_DIMENSION])
    (by norm_num [MIN_FEED_RATE, MAX_FEED_RATE])
    (by norm_num)

theorem from_dict_dInvalidZ :
    from_dict dInvalidZ
      = .error (.valueError
          "Invalid setting value: Pen down position must be lower than pen up position") := by
  rw [from_dict_of_all_present (by decide),
    decodeFields_conv_ok convertRequired_dInvalidZ,
    getQ_mk_convInvalid, invariants_200_200_1000_1_5_1]
  rfl

theorem from_dict_dBadString :
    from_dict dBadString
      = .error (.valueError
          "Invalid setting value: could not convert string to float: \x27abc\x27") := rfl

theorem from_dict_dMissingSafeZ :
    from_dict dMissingSafeZ = .error (.keyError ["safe_z"]) := rfl

theorem from_dict_dStrings :
    from_dict dStrings
      = .error (.valueError
          "Invalid setting value: Pen down position must be lower than pen up position") := by
  rw [from_dict_of_all_present (by decide),
    decodeFields_conv_ok convertRequired_dStrings,
    getQ_mk_convInvalid, invariants_200_200_1000_1_5_1]
  rfl

theorem from_dict_dStringsValid : from_dict dStringsValid = .ok defaults := by
  rw [from_dict_of_all_present (by decide),
    decodeFields_conv_ok convertRequired_dStringsValid,
    getQ_mk_convValid, mk'_ok_of_invariants invariantsHold_defaults]
  rfl

theorem loads_notjson :
    loads "\x7bnot json" = .error (.jsonDecodeError "Expecting value") := rfl

/-! ### The claims -/

/-- C1, counterexample.  The claim says no live instance ever violates the
invariants; but the dataclass is not frozen, so assigning
`settings.bed_width = 2000.0` on a freshly constructed default instance
yields an observable instance violating the dimension bound, and no
validation runs. -/
theorem C1_counterexample :
    Observable { defaults with bed_width := 2000 }
    ∧ ¬ invariantsHold { defaults with bed_width := 2000 } := by
  constructor
  · exact Observable.updated (FieldUpdate.setBedWidth 2000)
      (Observable.constructed (mk'_ok_of_invariants invariantsHold_defaults))
  · intro h
    have h2 : (2000 : ℚ) ≤ MAX_DIMENSION := h.1.2
    norm_num [MAX_DIMENSION] at h2

/-- C1, amended.  Every instance produced by a construction path — the
validated constructor, `from_dict`, or `load` — satisfies the three
invariants; the guarantee holds at construction, not across later field
assignments. -/
theorem C1_invariants_at_construction :
    (∀ (bw bh fr up dn sz : ℚ) (s : MachineSettings),
      mk' bw bh fr up dn sz = .ok s → invariantsHold s) ∧
    (∀ (data : List (String × PyValue)) (s : MachineSettings),
      from_dict data = .ok s → invariantsHold s) ∧
    (∀ (path : String) (fs : String → Option String) (s : MachineSettings),
      load path fs = .ok s → invariantsHold s) :=
  ⟨fun _ _ _ _ _ _ _ h => (mk'_ok_inv h).2,
   fun _ _ h => from_dict_ok_invariants h,
   fun _ _ _ h => load_ok_invariants h⟩

/-- C1, witness: the amended theorem applied to the default construction. -/
theorem C1_invariants_at_construction_witness : invariantsHold defaults :=
  C1_invariants_at_construction.1 200 200 1000 1 0 1 defaults
    (mk'_ok_of_invariants invariantsHold_defaults)

/-- C2, counterexample.  A well-formed-but-physically-inconsistent mapping
and a malformed (non-numeric string) mapping fail with the *same* exception
type and the same `"Invalid setting value: "` wrapper: `from_dict` catches
the validation `ValueError` inside its conversion `try` block and re-raises
it exactly as it re-raises a float-conversion failure, so the two are not
distinguishable from the failure signal. -/
theorem C2_counterexample :
    from_dict dInvalidZ = .error (.valueError
      "Invalid setting value: Pen down position must be lower than pen up position") ∧
    from_dict dBadString = .error (.valueError
      "Invalid setting value: could not convert string to float: \x27abc\x27") ∧
    pyErrorType (.valueError
        "Invalid setting value: Pen down position must be lower than pen up position")
      = pyErrorType (.valueError
        "Invalid setting value: could not convert string to float: \x27abc\x27") :=
  ⟨from_dict_dInvalidZ, from_dict_dBadString, rfl⟩

/-- C2, amended.  Once all six keys are present, every `from_dict` failure —
validation failure or value-conversion failure alike — surfaces as a
`ValueError` wrapped in `"Invalid setting value: "`; this is distinguishable
from `MissingFields` (a `KeyError`), but validation failures are not
distinguishable from `TypeMismatch` by the failure signal. -/
theorem C2_invalid_settings_signal :
    ∀ data : List (String × PyValue),
      (required_keys.filter fun k => (data.lookup k).isNone) = [] →
      ∀ e, from_dict data = .error e →
        pyErrorType e = "ValueError" ∧
        (∃ m, e = .valueError ("Invalid setting value: " ++ m)) ∧
        ∀ l, e ≠ .keyError l := by
  intro data hall e h
  obtain ⟨m, rfl⟩ := from_dict_error_shape hall h
  exact ⟨rfl, ⟨m, rfl⟩, fun l hl => by cases hl⟩

/-- C2, witness: the amended theorem applied to the inconsistent mapping. -/
theorem C2_invalid_settings_signal_witness :
    pyErrorType (.valueError
      "Invalid setting value: Pen down position must be lower than pen up position")
      = "ValueError" :=
  (C2_invalid_settings_signal dInvalidZ (by decide) _ from_dict_dInvalidZ).1

/-- C3.  For every valid instance, `to_dict` has exactly the six required
keys in field order, each bound to the corresponding field, and
`from_dict (to_dict s)` succeeds with an equal instance. -/
theorem C3_serialization_roundtrip :
    ∀ s : MachineSettings, invariantsHold s →
      (to_dict s).map Prod.fst
          = ["bed_width", "bed_height", "feed_rate",
             "pen_up_position", "pen_down_position", "safe_z"] ∧
      (to_dict s).lookup "bed_width" = Option.some (.num s.bed_width) ∧
      (to_dict s).lookup "bed_height" = Option.some (.num s.bed_height) ∧
      (to_dict s).lookup "feed_rate" = Option.some (.num s.feed_rate) ∧
      (to_dict s).lookup "pen_up_position" = Option.some (.num s.pen_up_position) ∧
      (to_dict s).lookup "pen_down_position" = Option.some (.num s.pen_down_position) ∧
      (to_dict s).lookup "safe_z" = Option.some (.num s.safe_z) ∧
      from_dict (to_dict s) = .ok s :=
  fun _ h => ⟨rfl, rfl, rfl, rfl, rfl, rfl, rfl, from_dict_to_dict_ok h⟩

/-- C3, witness: the round trip at the default instance. -/
theorem C3_serialization_roundtrip_witness :
    from_dict (to_dict defaults) = .ok defaults :=
  (C3_serialization_roundtrip defaults invariantsHold_defaults).2.2.2.2.2.2.2

/-- C4.  A missing file makes `load` return the default-constructed instance
without an error; a present file whose content fails to parse makes `load`
propagate the `JSONDecodeError` — the default fallback never applies there. -/
theorem C4_load_fallback_asymmetry :
    ∀ (path : String) (fs : String → Option String),
      (fs path = Option.none → load path fs = .ok defaults) ∧
      (∀ c m, fs path = Option.some c → loads c = .error (.jsonDecodeError m) →
        load path fs = .error (.jsonDecodeError m)) :=
  fun _ _ => ⟨fun h => load_none h, fun _ _ h hp => load_parse_error h hp⟩

/-- C4, witness: the theorem applied to a store with no file at one location
and `\x7bnot json` at another. -/
theorem C4_load_fallback_asymmetry_witness :
    load "missing.json" fsDemo = .ok defaults ∧
    load "settings.json" fsDemo = .error (.jsonDecodeError "Expecting value") :=
  ⟨(C4_load_fallback_asymmetry "missing.json" fsDemo).1 rfl,
   (C4_load_fallback_asymmetry "settings.json" fsDemo).2
     "\x7bnot json" "Expecting value" rfl loads_notjson⟩

/-- C5.  Saving a valid instance then loading the same location returns an
equal instance.  The `IsDecimal` hypotheses say each field has a finite
decimal expansion — true of every Python float (all are dyadic rationals),
so they restrict nothing the original claim quantifies over; they only
exclude rationals no float can hold. -/
theorem C5_save_then_load :
    ∀ (s : MachineSettings) (path : String) (fs : String → Option String),
      invariantsHold s →
      IsDecimal s.bed_width → IsDecimal s.bed_height → IsDecimal s.feed_rate →
      IsDecimal s.pen_up_position → IsDecimal s.pen_down_position →
      IsDecimal s.safe_z →
      load path (save s path fs) = .ok s :=
  fun _ _ _ hinv h1 h2 h3 h4 h5 h6 => load_save hinv ⟨h1, h2, h3, h4, h5, h6⟩

/-- C5, witness: save-then-load at the default instance on an empty store. -/
theorem C5_save_then_load_witness :
    load "settings.json" (save defaults "settings.json" fun _ => Option.none)
      = .ok defaults :=
  C5_save_then_load defaults "settings.json" (fun _ => Option.none)
    (by
      refine ⟨⟨?_, ?_⟩, ⟨?_, ?_⟩, ⟨?_, ?_⟩, ?_, ?_⟩ <;>
        norm_num [defaults, MIN_DIMENSION, MAX_DIMENSION, MIN_FEED_RATE, MAX_FEED_RATE])
    (by norm_num [IsDecimal, defaults]) (by norm_num [IsDecimal, defaults])
    (by norm_num [IsDecimal, defaults]) (by norm_num [IsDecimal, defaults])
    (by norm_num [IsDecimal, defaults]) (by norm_num [IsDecimal, defaults])

/-- C6.  Construction succeeds exactly when the invariants hold (first
conjunct), and the documented bounds are inclusive at both ends for
`bed_width`, `bed_height` and `feed_rate`: the boundary values construct,
values just outside fail with the validation `ValueError`. -/
theorem C6_bounds_inclusive :
    (∀ bw bh fr up dn sz : ℚ,
      mk' bw bh fr up dn sz = .ok ⟨bw, bh, fr, up, dn, sz⟩
        ↔ invariantsHold ⟨bw, bh, fr, up, dn, sz⟩) ∧
    mk' (1/10) 200 1000 1 0 1 = .ok ⟨1/10, 200, 1000, 1, 0, 1⟩ ∧
    mk' 1000 200 1000 1 0 1 = .ok ⟨1000, 200, 1000, 1, 0, 1⟩ ∧
    mk' (99/1000) 200 1000 1 0 1
      = .error (.valueError "Bed width must be between 0.1 and 1000.0mm") ∧
    mk' (100001/100) 200 1000 1 0 1
      = .error (.valueError "Bed width must be between 0.1 and 1000.0mm") ∧
    mk' 200 (1/10) 1000 1 0 1 = .ok ⟨200, 1/10, 1000, 1, 0, 1⟩ ∧
    mk' 200 1000 1000 1 0 1 = .ok ⟨200, 1000, 1000, 1, 0, 1⟩ ∧
    mk' 200 (99/1000) 1000 1 0 1
      = .error (.valueError "Bed height must be between 0.1 and 1000.0mm") ∧
    mk' 200 (100001/100) 1000 1 0 1
      = .error (.valueError "Bed height must be between 0.1 and 1000.0mm") ∧
    mk' 200 200 1 1 0 1 = .ok ⟨200, 200, 1, 1, 0, 1⟩ ∧
    mk' 200 200 5000 1 0 1 = .ok ⟨200, 200, 5000, 1, 0, 1⟩ ∧
    mk' 200 200 (99/100) 1 0 1
      = .error (.valueError "Feed rate must be between 1.0 and 5000.0mm/min") ∧
    mk' 200 200 (500001/100) 1 0 1
      = .error (.valueError "Feed rate must be between 1.0 and 5000.0mm/min") := by
  refine ⟨fun bw bh fr up dn sz => ⟨fun h => (mk'_ok_inv h).2, mk'_ok_of_invariants⟩,
    ?_, ?_, ?_, ?_, ?_, ?_, ?_, ?_, ?_, ?_, ?_, ?_⟩
  · exact mk'_ok_of_invariants (by
      refine ⟨⟨?_, ?_⟩, ⟨?_, ?_⟩, ⟨?_, ?_⟩, ?_, ?_⟩ <;>
        norm_num [MIN_DIMENSION, MAX_DIMENSION, MIN_FEED_RATE, MAX_FEED_RATE])
  · exact mk'_ok_of_invariants (by
      refine ⟨⟨?_, ?_⟩, ⟨?_, ?_⟩, ⟨?_, ?_⟩, ?_, ?_⟩ <;>
        norm_num [MIN_DIMENSION, MAX_DIMENSION, MIN_FEED_RATE, MAX_FEED_RATE])
  · exact mk'_error_width (by norm_num [MIN_DIMENSION, MAX_DIMENSION])
  · exact mk'_error_width (by norm_num [MIN_DIMENSION, MAX_DIMENSION])
  · exact mk'_ok_of_invariants (by
      refine ⟨⟨?_, ?_⟩, ⟨?_, ?_⟩, ⟨?_, ?_⟩, ?_, ?_⟩ <;>
        norm_num [MIN_DIMENSION, MAX_DIMENSION, MIN_FEED_RATE, MAX_FEED_RATE])
  · exact mk'_ok_of_invariants (by
      refine ⟨⟨?_, ?_⟩, ⟨?_, ?_⟩, ⟨?_, ?_⟩, ?_, ?_⟩ <;>
        norm_num [MIN_DIMENSION, MAX_DIMENSION, MIN_FEED_RATE, MAX_FEED_RATE])
  · exact mk'_error_height (by norm_num [MIN_DIMENSION, MAX_DIMENSION])
      (by norm_num [MIN_DIMENSION, MAX_DIMENSION])
  · exact mk'_error_height (by norm_num [MIN_DIMENSION, MAX_DIMENSION])
      (by norm_num [MIN_DIMENSION, MAX_DIMENSION])
  · exact mk'_ok_of_invariants (by
      refine ⟨⟨?_, ?_⟩, ⟨?_, ?_⟩, ⟨?_, ?_⟩, ?_, ?_⟩ <;>
        norm_num [MIN_DIMENSION, MAX_DIMENSION, MIN_FEED_RATE, MAX_FEED_RATE])
  · exact mk'_ok_of_invariants (by
      refine ⟨⟨?_, ?_⟩, ⟨?_, ?_⟩, ⟨?_, ?_⟩, ?_, ?_⟩ <;>
        norm_num [MIN_DIMENSION, MAX_DIMENSION, MIN_FEED_RATE, MAX_FEED_RATE])
  · exact mk'_error_feed (by norm_num [MIN_DIMENSION, MAX_DIMENSION])
      (by norm_num [MIN_DIMENSION, MAX_DIMENSION])
      (by norm_num [MIN_FEED_RATE, MAX_FEED_RATE])
  · exact mk'_error_feed (by norm_num [MIN_DIMENSION, MAX_DIMENSION])
      (by norm_num [MIN_DIMENSION, MAX_DIMENSION])
      (by norm_num [MIN_FEED_RATE, MAX_FEED_RATE])

/-- C7.  Construction never succeeds with a broken Z ordering (first
conjunct); with in-range dimensions and feed rate it succeeds for exactly
the non-strict ordering (second conjunct); `pen_down = 5 > pen_up = 1`
fails and the all-equal configuration succeeds. -/
theorem C7_z_ordering :
    (∀ (bw bh fr up dn sz : ℚ) (s : MachineSettings),
      mk' bw bh fr up dn sz = .ok s →
        s.pen_down_position ≤ s.pen_up_position ∧ s.pen_up_position ≤ s.safe_z) ∧
    (∀ up dn sz : ℚ, dn ≤ up → up ≤ sz →
      mk' 200 200 1000 up dn sz = .ok ⟨200, 200, 1000, up, dn, sz⟩) ∧
    mk' 200 200 1000 1 5 1
      = .error (.valueError "Pen down position must be lower than pen up position") ∧
    mk' 200 200 1000 1 1 1 = .ok ⟨200, 200, 1000, 1, 1, 1⟩ := by
  refine ⟨fun bw bh fr up dn sz s h => (mk'_ok_inv h).2.2.2.2, ?_, ?_, ?_⟩
  · intro up dn sz h1 h2
    exact mk'_ok_of_invariants ⟨⟨by norm_num [MIN_DIMENSION], by norm_num [MAX_DIMENSION]⟩,
      ⟨by norm_num [MIN_DIMENSION], by norm_num [MAX_DIMENSION]⟩,
      ⟨by norm_num [MIN_FEED_RATE], by norm_num [MAX_FEED_RATE]⟩, h1, h2⟩
  · exact invariants_200_200_1000_1_5_1
  · exact mk'_ok_of_invariants (by
      refine ⟨⟨?_, ?_⟩, ⟨?_, ?_⟩, ⟨?_, ?_⟩, ?_, ?_⟩ <;>
        norm_num [MIN_DIMENSION, MAX_DIMENSION, MIN_FEED_RATE, MAX_FEED_RATE])

/-- C7, witness: the ordering conjunct applied at `dn = 0 ≤ up = 1 ≤ sz = 1`. -/
theorem C7_z_ordering_witness :
    mk' 200 200 1000 1 0 1 = .ok ⟨200, 200, 1000, 1, 0, 1⟩ :=
  C7_z_ordering.2.1 1 0 1 (by norm_num) (by norm_num)

/-- C8.  `from_dict` fails with `KeyError` exactly when some required key is
absent; the error names exactly the absent required keys (so extra unknown
keys never trigger it), and omitting only `safe_z` names exactly `safe_z`. -/
theorem C8_missing_key_detection :
    (∀ (data : List (String × PyValue)) (l : List String),
      from_dict data = .error (.keyError l)
        ↔ l = required_keys.filter (fun k => (data.lookup k).isNone) ∧ l ≠ []) ∧
    (∀ (data : List (String × PyValue)) (l : List String) (k : String),
      from_dict data = .error (.keyError l) →
        (k ∈ l ↔ k ∈ required_keys ∧ data.lookup k = Option.none)) ∧
    from_dict dMissingSafeZ = .error (.keyError ["safe_z"]) := by
  refine ⟨from_dict_keyError_iff, ?_, from_dict_dMissingSafeZ⟩
  intro data l k h
  obtain ⟨rfl, -⟩ := (from_dict_keyError_iff data l).mp h
  simp [List.mem_filter, Option.isNone_iff_eq_none]

/-- C8, witness: the membership conjunct applied to the mapping that omits
only `safe_z`. -/
theorem C8_missing_key_detection_witness :
    "safe_z" ∈ ["safe_z"]
      ↔ "safe_z" ∈ required_keys ∧ dMissingSafeZ.lookup "safe_z" = Option.none :=
  C8_missing_key_detection.2.1 dMissingSafeZ ["safe_z"] "safe_z" from_dict_dMissingSafeZ

/-- C9.  The default-constructed instance has exactly the six documented
field values, satisfies all three invariants, and the default construction
(which runs `__post_init__`) succeeds. -/
theorem C9_default_values :
    defaults.bed_width = 200 ∧ defaults.bed_height = 200 ∧
    defaults.feed_rate = 1000 ∧ defaults.pen_up_position = 1 ∧
    defaults.pen_down_position = 0 ∧ defaults.safe_z = 1 ∧
    invariantsHold defaults ∧
    mk' 200 200 1000 1 0 1 = .ok defaults :=
  ⟨rfl, rfl, rfl, rfl, rfl, rfl, invariantsHold_defaults,
   mk'_ok_of_invariants invariantsHold_defaults⟩

/-- C10, counterexample.  Every required value of `dStrings` is a
float-convertible string (the conversion step succeeds, first conjunct),
yet `from_dict` does not succeed: the decoded fields violate the ordering
invariant, so it raises.  The claim's "from_dict succeeds" is therefore too
strong as stated. -/
theorem C10_counterexample :
    convertRequired dStrings = .ok convInvalid ∧
    from_dict dStrings = .error (.valueError
      "Invalid setting value: Pen down position must be lower than pen up position") :=
  ⟨convertRequired_dStrings, from_dict_dStrings⟩

/-- C10, amended.  `from_dict` coerces rather than type-checks: when every
required value is `float`-convertible, the result equals the result on the
mapping with those values already converted (so it succeeds exactly when the
decoded floats satisfy the invariants, as witnessed by the string-valued
mapping decoding to the defaults). -/
theorem C10_float_coercion :
    (∀ data : List (String × PyValue),
      (∀ e ∈ data, e.1 ∈ required_keys → ∃ q, pyFloat e.2 = .ok q) →
      from_dict data = from_dict (convertMap data)) ∧
    from_dict dStringsValid = .ok defaults :=
  ⟨from_dict_convertMap, from_dict_dStringsValid⟩

/-- C10, witness: the coercion equation applied to the string-valued
mapping. -/
theorem C10_float_coercion_witness :
    from_dict dStringsValid = from_dict (convertMap dStringsValid) :=
  C10_float_coercion.1 dStringsValid (by
    intro e he
    simp only [dStringsValid, List.mem_cons, List.not_mem_nil, or_false] at he
    rcases he with rfl | rfl | rfl | rfl | rfl | rfl
    · exact fun _ => ⟨200, pyFloat_s200⟩
    · exact fun _ => ⟨200, pyFloat_s200⟩
    · exact fun _ => ⟨1000, pyFloat_s1000⟩
    · exact fun _ => ⟨1, pyFloat_s1⟩
    · exact fun _ => ⟨0, pyFloat_s0⟩
    · exact fun _ => ⟨1, pyFloat_s1⟩)


end MachineSettings

end DrawBot
